import Mathlib

/-!
Shallow embedding of the daemon–Prime connection core of the `alfred`
repository (Go sources under `daemon/`), covering:

* the generic message value model (`map[string]interface{}` payloads),
* the command-handler registry (`internal/handlers/registry.go`),
* the client dispatch, send and framing paths
  (`internal/primeclient/client.go`),
* the reconnect backoff loop (`Client.Connect` / `Client.connectOnce`),
* the resource-monitor emitter (`internal/emitters`, resource monitor).

Go `map[string]interface{}` values are embedded as association lists of
string keys and JSON-ish values; Go functions that can raise (panic) are
embedded as `Option`-returning functions, `none` standing for a raised
panic that no caller recovers. Machine integers are `Nat` with explicit
`% 2 ^ 32` where the code truncates; Go `float64` statistics are embedded
as `Rat` (the values involved are exact decimals, no rounding occurs in
the properties considered).
-/

/-- A JSON-ish dynamic value (`interface{}` payload member as produced by
`encoding/json` for the message shapes used by the daemon core). -/
inductive Value where
  | str : String → Value
  | num : Rat → Value
  | bool : Bool → Value
  | null : Value
deriving DecidableEq, Repr

/-- A wire message / parameter map, Go `map[string]interface{}`.
Embedded as an association list; `Msg.set` overwrites like Go map
assignment, `Msg.get` is Go map lookup. -/
def Msg : Type := List (String × Value)

instance : DecidableEq Msg := by unfold Msg; infer_instance

/-- Go map read `m[k]` (with presence). -/
def Msg.get (m : Msg) (k : String) : Option Value := List.lookup k m

/-- Go map assignment `m[k] = v` (overwrites any previous binding). -/
def Msg.set (m : Msg) (k : String) (v : Value) : Msg :=
  (k, v) :: m.filter (fun p => !(p.1 == k))

/-- Go string type assertion with zero default: `s, _ := m[k].(string)`. -/
def Msg.getStr (m : Msg) (k : String) : String :=
  match m.get k with
  | some (Value.str s) => s
  | _ => ""

theorem Msg.get_set_self (m : Msg) (k : String) (v : Value) :
    (m.set k v).get k = some v := by
  simp [Msg.get, Msg.set, List.lookup]

theorem lookup_filter_ne (m : Msg) (k k' : String) (h : k' ≠ k) :
    List.lookup k' (m.filter (fun p => !(p.1 == k))) = List.lookup k' m := by
  induction m with
  | nil => rfl
  | cons p rest ih =>
    obtain ⟨pk, pv⟩ := p
    by_cases hp : pk = k
    · subst hp
      have hk' : (k' == pk) = false := by simpa using h
      simp [List.filter_cons, List.lookup, hk', ih]
    · have hne : (pk == k) = false := by simpa using hp
      simp only [List.filter_cons, hne, Bool.not_false, if_pos, List.lookup]
      cases hkk : (k' == pk) <;> simp [List.lookup, hkk, ih]

theorem Msg.get_set_ne (m : Msg) (k k' : String) (v : Value) (h : k' ≠ k) :
    (m.set k v).get k' = m.get k' := by
  have hk' : (k' == k) = false := by simpa using h
  simp [Msg.get, Msg.set, List.lookup, hk', lookup_filter_ne m k k' h]

/-! ## Handler registry (`internal/handlers/registry.go`)

A `Handler` is Go `func(params map[string]interface{}) map[string]interface{}`.
Since a Go handler may panic and nothing on the dispatch path installs
`recover`, a handler is embedded as `Msg → Option Msg`, `none` standing
for a raised panic. -/

/-- A command handler (registry.go line 11). -/
def Handler : Type := Msg → Option Msg

/-- The registry's `handlers` map, newest registration first (Go map with
`Register` overwriting; `List.lookup` returns the newest binding). -/
def Registry : Type := List (String × Handler)

/-- `Registry.Handle` (registry.go lines 35–48): look up the handler for
`cmdType`; when absent, synthesize the unknown-command failure result;
otherwise call the handler (a raised panic propagates — there is no
`recover` on this path). -/
def Registry.handle (r : Registry) (cmdType : String) (params : Msg) : Option Msg :=
  match List.lookup cmdType r with
  | none =>
      some [("success", Value.bool false),
            ("error", Value.str ("unknown command type: " ++ cmdType))]
  | some h => h params

/-! ## Client dispatch (`internal/primeclient/client.go`) -/

/-- Protocol message type constant `TypeResult` (client.go line 59). -/
def TypeResult : String := "result"

/-- `Client.handleMessage` (client.go lines 266–300): extract `type` and
`command_id` (string assertions, zero default), run the registry, then
augment the result with `command_id`, `daemon_id` and `type:"result"`.
The augmented map is the outbound frame handed to `sendMessage`. A
panicking handler propagates (`none`): no result frame is produced and
the goroutine's panic kills the process. -/
def Client.handleMessage (reg : Registry) (daemonID : String) (msg : Msg) :
    Option Msg :=
  let msgType := msg.getStr "type"
  let commandID := msg.getStr "command_id"
  match Registry.handle reg msgType msg with
  | none => none
  | some result =>
      some (((result.set "command_id" (Value.str commandID)).set
              "daemon_id" (Value.str daemonID)).set
              "type" (Value.str TypeResult))

/-- C1: every outbound result frame produced by the dispatcher for an
inbound request frame carries the request's `command_id`, the agent's
`daemon_id` and `type:"result"`, whatever result (success or failure)
the handler registry returned. -/
theorem result_correlation (reg : Registry) (daemonID : String) (msg : Msg)
    (cid : String) (r : Msg)
    (hc : msg.get "command_id" = some (Value.str cid))
    (hr : Registry.handle reg (msg.getStr "type") msg = some r) :
    ∃ out, Client.handleMessage reg daemonID msg = some out ∧
      out.get "command_id" = some (Value.str cid) ∧
      out.get "daemon_id" = some (Value.str daemonID) ∧
      out.get "type" = some (Value.str "result") := by
  have hcid : msg.getStr "command_id" = cid := by
    simp [Msg.getStr, hc]
  have hm : Client.handleMessage reg daemonID msg =
      some (((r.set "command_id" (Value.str (msg.getStr "command_id"))).set
              "daemon_id" (Value.str daemonID)).set "type" (Value.str TypeResult)) := by
    simp only [Client.handleMessage, hr]
  refine ⟨_, hm, ?_, ?_, ?_⟩
  · rw [Msg.get_set_ne _ _ _ _ (by decide), Msg.get_set_ne _ _ _ _ (by decide),
      Msg.get_set_self, hcid]
  · rw [Msg.get_set_ne _ _ _ _ (by decide), Msg.get_set_self]
  · rw [Msg.get_set_self]; rfl

/-- Witness for C1: the empty registry and the request
`{type:"teleport", command_id:"c-3"}` (spec scenario S4) produce a result
frame correlated to `c-3` with `daemon_id:"d-1"` and `type:"result"`. -/
theorem result_correlation_witness :
    ∃ out, Client.handleMessage []
        "d-1" [("type", Value.str "teleport"), ("command_id", Value.str "c-3")]
        = some out ∧
      out.get "command_id" = some (Value.str "c-3") ∧
      out.get "daemon_id" = some (Value.str "d-1") ∧
      out.get "type" = some (Value.str "result") :=
  result_correlation [] "d-1"
    [("type", Value.str "teleport"), ("command_id", Value.str "c-3")]
    "c-3" _ (by decide) rfl

/-- C3: `Handle` on an unregistered command type returns exactly the
synthesized failure result `{success:false, error:"unknown command type: " ++ t}`
as a normal result (registry.go lines 40–45), and the dispatcher then
still produces an outbound result frame — nothing on this path raises or
tears the session down. -/
theorem unknown_command_result (reg : Registry) (t : String) (p : Msg)
    (hl : List.lookup t reg = none) :
    Registry.handle reg t p =
      some [("success", Value.bool false),
            ("error", Value.str ("unknown command type: " ++ t))] ∧
    ∀ (daemonID : String) (msg : Msg), msg.getStr "type" = t →
      (Client.handleMessage reg daemonID msg).isSome := by
  constructor
  · simp [Registry.handle, hl]
  · intro daemonID msg ht
    simp [Client.handleMessage, ht, Registry.handle, hl]

/-- Witness for C3: the unknown type `teleport` against the empty registry
yields exactly the failure result, and dispatch still emits a frame. -/
theorem unknown_command_result_witness :
    Registry.handle [] "teleport" [] =
      some [("success", Value.bool false),
            ("error", Value.str ("unknown command type: teleport"))] ∧
    (Client.handleMessage [] "d-1" [("type", Value.str "teleport")]).isSome := by
  have h := unknown_command_result [] "teleport" [] rfl
  exact ⟨h.1, h.2 "d-1" [("type", Value.str "teleport")] rfl⟩

/-! ## Handler totality (C5)

`Registry.Handle` calls the handler with no `recover` (registry.go line 47)
and `Client.handleMessage` runs inside a bare goroutine (client.go line 262),
so a handler that raises propagates: no result is produced and the process
dies. A raising handler is embedded as one returning `none`. -/

/-- A registered handler that raises (Go: panics); nothing on the dispatch
path recovers it. -/
def raisingHandler : Handler := fun _ => none

/-- A registered handler that reports a failure the normal way, through the
result's error field. -/
def failingHandler : Handler :=
  fun _ => some [("success", Value.bool false), ("error", Value.str "boom")]

/-- Counterexample to C5: the claim says any failure inside a handler is
caught and reported through the result's error field. For the concrete
registry holding the raising handler under type "boom", `Handle` yields no
result at all (the panic propagates through the dispatch path, which
installs no recovery), so no `success:false` result frame is produced. -/
theorem handler_panic_uncaught :
    Registry.handle [("boom", raisingHandler)] "boom" [] = none ∧
    Client.handleMessage [("boom", raisingHandler)] "d-1"
      [("type", Value.str "boom"), ("command_id", Value.str "c-9")] = none := by
  constructor <;> rfl

/-- C5 (amended): the dispatch path itself never raises and never turns a
returned result into a teardown — whatever result a registered handler
returns (reporting success or failure) is relayed unchanged as a normal
result; only a handler that itself raises escapes, since no recovery is
installed. -/
theorem handler_result_relayed (reg : Registry) (t : String) (p : Msg)
    (h : Handler) (r : Msg)
    (hl : List.lookup t reg = some h) (hr : h p = some r) :
    Registry.handle reg t p = some r := by
  simp [Registry.handle, hl, hr]

/-- Witness for the amended C5: a handler reporting failure through the
error field is relayed as a normal result. -/
theorem handler_result_relayed_witness :
    Registry.handle [("f", failingHandler)] "f" [] =
      some [("success", Value.bool false), ("error", Value.str "boom")] :=
  handler_result_relayed [("f", failingHandler)] "f" [] failingHandler _ rfl rfl

/-! ## Low-level framing (`Client.sendMessage` / `Client.readMessage`)

`sendMessage` (client.go lines 333–362) writes a 4-byte big-endian length
prefix (`uint32(len(data))`) followed by the JSON bytes. Bytes are `Nat`
values below 256. -/

/-- `binary.BigEndian.PutUint32` of `uint32 n` (client.go line 349). -/
def putUint32BE (n : Nat) : List Nat :=
  [n % 2 ^ 32 / 2 ^ 24, n % 2 ^ 24 / 2 ^ 16, n % 2 ^ 16 / 2 ^ 8, n % 2 ^ 8]

/-- `binary.BigEndian.Uint32` (client.go line 380). -/
def uint32BE (b0 b1 b2 b3 : Nat) : Nat :=
  b0 * 2 ^ 24 + b1 * 2 ^ 16 + b2 * 2 ^ 8 + b3

/-- The frame `sendMessage` puts on the wire for payload bytes `data`:
length prefix, then the payload (client.go lines 347–359). -/
def encodeFrame (data : List Nat) : List Nat :=
  putUint32BE data.length ++ data

/-- The pure framing content of `readMessage` (client.go lines 375–386) on
a fully delivered byte stream: read 4 length bytes, then exactly `length`
payload bytes, leaving the rest of the stream. There is no size check of
any kind between reading the prefix and buffering the payload. -/
def decodeFrame (s : List Nat) : Option (List Nat × List Nat) :=
  match s with
  | b0 :: b1 :: b2 :: b3 :: rest =>
      let n := uint32BE b0 b1 b2 b3
      if n ≤ rest.length then some (rest.take n, rest.drop n) else none
  | _ => none

theorem decodeFrame_encodeFrame (data tail : List Nat)
    (h : data.length < 2 ^ 32) :
    decodeFrame (encodeFrame data ++ tail) = some (data, tail) := by
  have hmod : data.length % 2 ^ 32 = data.length := Nat.mod_eq_of_lt h
  have hn : uint32BE (data.length % 2 ^ 32 / 2 ^ 24)
      (data.length % 2 ^ 24 / 2 ^ 16) (data.length % 2 ^ 16 / 2 ^ 8)
      (data.length % 2 ^ 8) = data.length := by
    rw [hmod]; unfold uint32BE; omega
  simp only [encodeFrame, putUint32BE, List.cons_append, List.nil_append,
    decodeFrame, hn]
  rw [if_pos (by simp), List.take_left, List.drop_left]

/-! ## C6: no maximum frame size on the read side

`readMessage` computes `length` from the prefix and immediately allocates
and fills `make([]byte, length)` (client.go lines 380–386): no bound is
compared against, so an oversized frame is buffered and handed to the JSON
decoder instead of being rejected. -/

/-- Counterexample to C6: a frame whose payload has 64 MiB + 1 bytes
(`67108865 > 67108864` bytes) is accepted whole by the read side — the
payload is buffered and returned for decoding, the stream position simply
advances — rather than being rejected with the session terminated. -/
theorem oversize_frame_accepted :
    decodeFrame (encodeFrame (List.replicate 67108865 0)) =
      some (List.replicate 67108865 0, []) ∧
    67108864 < (List.replicate 67108865 (0 : Nat)).length := by
  constructor
  · have h := decodeFrame_encodeFrame (List.replicate 67108865 0) []
      (by rw [List.length_replicate]; norm_num)
    rwa [List.append_nil] at h
  · rw [List.length_replicate]; norm_num

/-- C6 (amended): the read side enforces no cap at all — every well-formed
frame whose payload length fits the 32-bit prefix is fully buffered and
returned for decoding, whatever its size. -/
theorem frame_no_size_cap (data : List Nat) (h : data.length < 2 ^ 32) :
    decodeFrame (encodeFrame data) = some (data, []) := by
  simpa using decodeFrame_encodeFrame data [] h

/-- Witness for the amended C6: a tiny concrete frame is decoded back. -/
theorem frame_no_size_cap_witness :
    decodeFrame (encodeFrame [7, 8]) = some ([7, 8], []) :=
  frame_no_size_cap [7, 8] (by decide)

/-! ## C2: the N-frame stream and the per-call buffered reader

`readMessage` constructs a fresh `bufio.NewReader(conn)` on every call
(client.go line 373). A `bufio.Reader` with an empty buffer serves a small
read by first filling its 4096-byte buffer with one underlying `conn.Read`,
which returns however many bytes the TCP connection has available — possibly
several frames. Whatever stays in that buffer when `readMessage` returns is
discarded with the reader. The connection is modelled as a queue of chunks
(the byte groups successive `conn.Read` calls deliver, i.e. TCP arrival
granularity); `bufio.Reader` semantics follow the Go standard library. -/

/-- Go `bufio` default buffer size. -/
def bufioSize : Nat := 4096

/-- One `bufio.Reader.Read` call asking for `k` bytes, given the current
buffer contents and the pending connection chunks. Returns the bytes
delivered, the remaining buffer, and the remaining chunks; `none` is EOF. -/
def bufioRead (buf : List Nat) (chunks : List (List Nat)) (k : Nat) :
    Option (List Nat × List Nat × List (List Nat)) :=
  if buf.isEmpty then
    match chunks with
    | [] => none
    | ch :: rest =>
        if bufioSize ≤ k then
          -- large read, empty buffer: read directly into the caller's slice
          if ch.length ≤ k then some (ch, [], rest)
          else some (ch.take k, [], ch.drop k :: rest)
        else
          -- one fill of the internal buffer from one underlying read
          let got := ch.take bufioSize
          let restCh := ch.drop bufioSize
          some (got.take k, got.drop k,
            if restCh.isEmpty then rest else restCh :: rest)
  else
    some (buf.take k, buf.drop k, chunks)

/-- `io.ReadFull`: loop `Read` until `k` bytes are delivered; an underlying
EOF or empty read is an error. `fuel` bounds the loop (callers pass enough). -/
def readFullLoop : Nat → Nat → List Nat → List (List Nat) →
    Option (List Nat × List Nat × List (List Nat))
  | 0, _, _, _ => none
  | _ + 1, 0, buf, chunks => some ([], buf, chunks)
  | fuel + 1, k, buf, chunks =>
      match bufioRead buf chunks k with
      | none => none
      | some (got, buf1, chunks1) =>
          if got.isEmpty then none
          else
            match readFullLoop fuel (k - got.length) buf1 chunks1 with
            | none => none
            | some (more, buf2, chunks2) => some (got ++ more, buf2, chunks2)

/-- `Client.readMessage` (client.go lines 364–394) over a chunked
connection: wrap the connection in a fresh `bufio.Reader` (empty buffer),
`ReadFull` 4 length bytes, `ReadFull` the payload, and return — the bytes
still sitting in the discarded reader's buffer are lost. -/
def readMessageChunked (fuel : Nat) (chunks : List (List Nat)) :
    Option (List Nat × List (List Nat)) :=
  match readFullLoop fuel 4 [] chunks with
  | none => none
  | some (lenBytes, buf1, chunks1) =>
      match lenBytes with
      | [b0, b1, b2, b3] =>
          match readFullLoop fuel (uint32BE b0 b1 b2 b3) buf1 chunks1 with
          | none => none
          | some (data, _, chunks2) => some (data, chunks2)
      | _ => none

/-- C2 evaluated at the failing input: frames for payloads `[1]` and `[2]`
are written in order but arrive in a single chunk. The first `readMessage`
buffers both frames in its fresh reader, returns the first payload, and
discards the second frame with the reader; the second `readMessage` finds
the connection empty and fails. When the same two frames arrive as separate
chunks, both reads succeed — the stream property only survives under
frame-aligned arrival. -/
theorem framing_stream_bug :
    readMessageChunked 20 [encodeFrame [1] ++ encodeFrame [2]] =
      some ([1], []) ∧
    readMessageChunked 20 [] = none ∧
    readMessageChunked 20 [encodeFrame [1], encodeFrame [2]] =
      some ([1], [encodeFrame [2]]) ∧
    readMessageChunked 20 [encodeFrame [2]] = some ([2], []) := by
  refine ⟨?_, rfl, ?_, ?_⟩ <;> rfl

/-! ## Client connection state and outbound sends -/

/-- The connection-relevant state of `primeclient.Client` (client.go
lines 22–41): `conn` is `none` when no TCP connection is established;
when connected it carries the log of bytes written so far. `daemonID` is
the controller-assigned identity. -/
structure Client where
  conn : Option (List Nat)
  daemonID : String

/-- `Client.sendMessage` (client.go lines 333–362): with no connection it
returns the "not connected" error before marshalling or writing anything;
otherwise it marshals the message and writes the length prefix followed by
the payload. `marshal` stands for `json.Marshal`. -/
def Client.sendMessage (marshal : Msg → List Nat) (c : Client) (msg : Msg) :
    Client × Except String Unit :=
  match c.conn with
  | none => (c, Except.error "not connected")
  | some written =>
      ({ c with conn := some (written ++ encodeFrame (marshal msg)) },
       Except.ok ())

/-- `Client.SendEvent` (client.go lines 302–313): build the event message
and send it through `sendMessage`. `timestamp` stands for the formatted
`time.Now()` value. -/
def Client.SendEvent (marshal : Msg → List Nat) (c : Client)
    (source eventType : String) (payload : Value) (timestamp : String) :
    Client × Except String Unit :=
  Client.sendMessage marshal c
    [("type", Value.str "event"),
     ("daemon_id", Value.str c.daemonID),
     ("source", Value.str source),
     ("event_type", Value.str eventType),
     ("payload", payload),
     ("timestamp", Value.str timestamp)]

/-- C10: any `SendEvent` made while no TCP connection is established
returns the "not connected" error and leaves the client state — including
the log of written bytes — unchanged. The modelled call is a total
function: it neither raises nor blocks, so pre-connect emitter events are
reported as errors rather than crashing the agent. -/
theorem sendEvent_not_connected (marshal : Msg → List Nat) (c : Client)
    (source eventType : String) (payload : Value) (ts : String)
    (h : c.conn = none) :
    Client.SendEvent marshal c source eventType payload ts =
      (c, Except.error "not connected") := by
  simp [Client.SendEvent, Client.sendMessage, h]

/-- Witness for C10: a freshly constructed, never-connected client. -/
theorem sendEvent_not_connected_witness :
    Client.SendEvent (fun _ => []) ⟨none, ""⟩ "daemon:macbook" "cpu_high"
      Value.null "2026-01-01T00:00:00Z" =
      (⟨none, ""⟩, Except.error "not connected") :=
  sendEvent_not_connected (fun _ => []) ⟨none, ""⟩ "daemon:macbook" "cpu_high"
    Value.null "2026-01-01T00:00:00Z" rfl

/-! ## Heartbeat (C9) -/

/-- The heartbeat ticker period in seconds:
`time.NewTicker(30 * time.Second)` (client.go line 202). The loop runs
from just after a successful registration (started at client.go line 158)
until the session's context is cancelled on teardown (client.go
lines 156–157), sending one heartbeat per tick. -/
def heartbeatTickerSeconds : Nat := 30

/-- The message built by `Client.sendHeartbeat` (client.go lines 215–236).
`memAlloc`/`memSys` are the sampled `runtime.MemStats` fields; the
`cpuPercent` and `diskPercent` locals are declared and never assigned, so
both fields carry 0; `active_tasks` is the literal 0. -/
def sendHeartbeatMsg (daemonID : String) (memAlloc memSys : Nat) : Msg :=
  [("type", Value.str "heartbeat"),
   ("daemon_id", Value.str daemonID),
   ("cpu_percent", Value.num 0),
   ("memory_percent", Value.num ((memAlloc : Rat) / (memSys : Rat) * 100)),
   ("disk_percent", Value.num 0),
   ("active_tasks", Value.num 0)]

/-- C9: the heartbeat loop ticks every 30 seconds (within the claimed
30 ± 5 s), and every heartbeat frame carries `daemon_id`, `cpu_percent`,
`memory_percent`, `disk_percent` and `active_tasks` (with `type`
"heartbeat"), whatever the sampled statistics are. -/
theorem heartbeat_cadence_fields :
    heartbeatTickerSeconds = 30 ∧
    25 ≤ heartbeatTickerSeconds ∧ heartbeatTickerSeconds ≤ 35 ∧
    ∀ (daemonID : String) (memAlloc memSys : Nat),
      (sendHeartbeatMsg daemonID memAlloc memSys).get "type" =
          some (Value.str "heartbeat") ∧
      (sendHeartbeatMsg daemonID memAlloc memSys).get "daemon_id" =
          some (Value.str daemonID) ∧
      ((sendHeartbeatMsg daemonID memAlloc memSys).get "cpu_percent").isSome ∧
      ((sendHeartbeatMsg daemonID memAlloc memSys).get "memory_percent").isSome ∧
      ((sendHeartbeatMsg daemonID memAlloc memSys).get "disk_percent").isSome ∧
      ((sendHeartbeatMsg daemonID memAlloc memSys).get "active_tasks").isSome := by
  refine ⟨rfl, by decide, by decide, ?_⟩
  intro daemonID memAlloc memSys
  exact ⟨rfl, rfl, rfl, rfl, rfl, rfl⟩

/-! ## Reconnect backoff (C4)

`Client.Connect` (client.go lines 96–122) loops: run `connectOnce`, wait
`reconnectDelay`, then double the delay capping at `maxReconnect = 60` s.
`connectOnce` (lines 124–162) resets `reconnectDelay` to 1 s as soon as
the TCP dial succeeds (line 148) — before registration is even attempted. -/

/-- How one `connectOnce` call ends. -/
inductive AttemptOutcome where
  | dialFail    -- the TCP dial itself failed; the delay is untouched
  | regFail     -- dial succeeded (delay reset to 1 s), registration failed
  | sessionDrop -- dial and registration succeeded (Serving), session later dropped
deriving DecidableEq, Repr

/-- The value of `reconnectDelay` when `connectOnce` returns, given its
value on entry: reset to 1 on any outcome whose dial succeeded
(client.go line 148), untouched on a dial failure. -/
def delayAfterAttempt (d : Nat) : AttemptOutcome → Nat
  | AttemptOutcome.dialFail => d
  | _ => 1

/-- The waits (in seconds) the `Connect` loop performs between successive
attempts, starting from delay `d` (a fresh client starts at 1, client.go
line 90): after each attempt it sleeps the current delay, then doubles it
capping at 60 (client.go lines 110–120). -/
def backoffWaits : Nat → List AttemptOutcome → List Nat
  | _, [] => []
  | d, o :: os =>
      let w := delayAfterAttempt d o
      w :: backoffWaits (min (2 * w) 60) os

/-- Counterexample to C4: two consecutive failed attempts in which the TCP
dial succeeds but registration is rejected (never reaching Serving) make
the agent wait 1 s and then 1 s again — not the claimed doubling 1 s, 2 s —
because the code resets the delay on TCP connect success (client.go
line 148), not on the successful `registration_ack`. -/
theorem backoff_counterexample :
    backoffWaits 1 [AttemptOutcome.regFail, AttemptOutcome.regFail] = [1, 1] ∧
    ([1, 1] : List Nat) ≠ [1, 2] := by
  constructor <;> decide

theorem backoffWaits_dialFail_pow (n k : Nat) :
    backoffWaits (min (2 ^ k) 60) (List.replicate n AttemptOutcome.dialFail) =
      (List.range n).map (fun i => min (2 ^ (k + i)) 60) := by
  induction n generalizing k with
  | zero => rfl
  | succ n ih =>
    have hstep : min (2 * min (2 ^ k) 60) 60 = min (2 ^ (k + 1)) 60 := by
      have h2 : 2 ^ (k + 1) = 2 * 2 ^ k := by ring
      rcases le_or_lt (2 ^ k) 60 with h | h
      · rw [min_eq_left h, h2]
      · rw [min_eq_right h.le, h2]
        have : 60 ≤ 2 * 2 ^ k := by omega
        omega
    rw [List.replicate_succ, backoffWaits, List.range_succ_eq_map,
      List.map_cons]
    simp only [delayAfterAttempt, hstep, ih (k + 1)]
    refine congrArg₂ _ (by rw [Nat.add_zero]) ?_
    rw [List.map_map]
    refine List.map_congr_left ?_
    intro i _
    have h1 : k + 1 + i = k + (i + 1) := by omega
    show min (2 ^ (k + 1 + i)) 60 = min (2 ^ (k + (i + 1))) 60
    rw [h1]

/-- C4 (amended): consecutive dial failures produce the waits
1, 2, 4, 8, 16, 32, 60, 60, … with the ceiling at 60 s; and the delay is
reset to 1 s by every successful TCP connection — hence in particular
after every successful `registration_ack` the next post-failure wait is
1 s, but the same reset also fires when the dial succeeds and
registration is then rejected. -/
theorem backoff_amended :
    (∀ n, backoffWaits 1 (List.replicate n AttemptOutcome.dialFail) =
        (List.range n).map (fun i => min (2 ^ i) 60)) ∧
    (∀ (d : Nat) (o : AttemptOutcome) (os : List AttemptOutcome),
        o ≠ AttemptOutcome.dialFail →
        backoffWaits d (o :: os) = 1 :: backoffWaits 2 os) := by
  constructor
  · intro n
    have h := backoffWaits_dialFail_pow n 0
    simpa using h
  · intro d o os ho
    cases o with
    | dialFail => exact absurd rfl ho
    | regFail => rfl
    | sessionDrop => rfl

/-- Witness for the amended C4: eight straight dial failures wait
1, 2, 4, 8, 16, 32, 60, 60 s, and one rejected registration (after a
successful dial, from any accumulated delay) is followed by a 1 s wait. -/
theorem backoff_amended_witness :
    backoffWaits 1 (List.replicate 8 AttemptOutcome.dialFail) =
      (List.range 8).map (fun i => min (2 ^ i) 60) ∧
    backoffWaits 32 [AttemptOutcome.regFail] = 1 :: backoffWaits 2 [] :=
  ⟨backoff_amended.1 8, backoff_amended.2 32 AttemptOutcome.regFail [] (by decide)⟩

/-! ## Resource monitor emitter (C7, C8)

`emitters.ResourceMonitor` (resource monitor emitter file): `check` runs on
each 30 s tick. It samples `runtime.MemStats` and `syscall.Statfs("/")`
and emits `memory_high` / `disk_high` when the respective percentage
crosses its threshold and the per-kind cooldown has elapsed. The struct
carries a `cpuThreshold` (80) and a `lastCPUAlert` field, but `check` has
no CPU branch: CPU is never sampled and `cpu_high` is never emitted.
Times are seconds; the `time.Time` zero value of a never-fired alert is
modelled as `none` (for any realistic clock `now.Sub(zero)` exceeds the
cooldown, which is what the zero value means in the comparison). The
`Statfs` call is modelled as succeeding. -/

/-- Alert bookkeeping fields of the `ResourceMonitor` struct. -/
structure RMState where
  lastMemAlert : Option Nat
  lastDiskAlert : Option Nat
  lastCPUAlert : Option Nat
deriving DecidableEq, Repr

/-- A freshly constructed monitor: no alert has ever fired. -/
def initRMState : RMState := ⟨none, none, none⟩

/-- Threshold / cooldown configuration fields of the struct. -/
structure RMConfig where
  cpuThreshold : Rat
  memThreshold : Rat
  diskThreshold : Rat
  alertCooldown : Nat
deriving DecidableEq, Repr

/-- The defaults set by `NewResourceMonitor`: 80% CPU, 85% memory,
90% disk, 5-minute (300 s) cooldown. -/
def newResourceMonitor : RMConfig := ⟨80, 85, 90, 300⟩

/-- `checkInterval`: 30 s tick period set by `NewResourceMonitor`. -/
def resourceCheckIntervalSeconds : Nat := 30

/-- One tick's view of the host statistics: `runtime.MemStats` allocation
fields, root-filesystem totals, and the host's CPU utilisation — the
latter is available on the machine but never read by `check`. -/
structure Sample where
  cpuPercent : Rat
  memAlloc : Nat
  memSys : Nat
  diskTotal : Nat
  diskFree : Nat
deriving DecidableEq, Repr

/-- `now.Sub(last) > alertCooldown`, with the never-fired zero time as
`none` (always beyond cooldown). -/
def cooldownOver : Option Nat → Nat → Nat → Bool
  | none, _, _ => true
  | some t, now, cd => decide (cd < now - t)

/-- The memory branch's guard: `memPercent > memThreshold` (with
`memPercent = float64(m.Alloc) / float64(m.Sys) * 100`) and the mem-alert
cooldown elapsed. -/
def memFire (cfg : RMConfig) (s : RMState) (smp : Sample) (now : Nat) : Bool :=
  decide (cfg.memThreshold < (smp.memAlloc : Rat) / (smp.memSys : Rat) * 100) &&
    cooldownOver s.lastMemAlert now cfg.alertCooldown

/-- The disk branch's guard: `diskPercent > diskThreshold` (with
`diskPercent = float64(used) / float64(total) * 100`) and the disk-alert
cooldown elapsed. -/
def diskFire (cfg : RMConfig) (s : RMState) (smp : Sample) (now : Nat) : Bool :=
  decide (cfg.diskThreshold <
      ((smp.diskTotal - smp.diskFree : Nat) : Rat) / (smp.diskTotal : Rat) * 100) &&
    cooldownOver s.lastDiskAlert now cfg.alertCooldown

/-- `ResourceMonitor.check`: the memory branch then the disk branch, each
stamping its own alert time and emitting its own event type when its guard
holds. There is no CPU branch; `lastCPUAlert` is never touched. -/
def ResourceMonitor.check (cfg : RMConfig) (s : RMState) (smp : Sample)
    (now : Nat) : RMState × List String :=
  ({ lastMemAlert := if memFire cfg s smp now then some now else s.lastMemAlert,
     lastDiskAlert := if diskFire cfg s smp now then some now else s.lastDiskAlert,
     lastCPUAlert := s.lastCPUAlert },
   (if memFire cfg s smp now then ["memory_high"] else []) ++
     (if diskFire cfg s smp now then ["disk_high"] else []))

/-- Modelled from the spec: "samples memory-allocation, disk, and CPU
statistics. If any crosses its threshold (suggested 80% CPU, 85% memory,
90% disk), emits `cpu_high`, `memory_high`, `disk_high` with a per-kind
cooldown". Written only to compare against the source's
`ResourceMonitor.check`, which has no CPU branch. -/
def checkPerSpec (cfg : RMConfig) (s : RMState) (smp : Sample)
    (now : Nat) : RMState × List String :=
  let cpuHot : Bool := decide (cfg.cpuThreshold < smp.cpuPercent) &&
    cooldownOver s.lastCPUAlert now cfg.alertCooldown
  ({ lastMemAlert := if memFire cfg s smp now then some now else s.lastMemAlert,
     lastDiskAlert := if diskFire cfg s smp now then some now else s.lastDiskAlert,
     lastCPUAlert := if cpuHot then some now else s.lastCPUAlert },
   (if cpuHot then ["cpu_high"] else []) ++
     (if memFire cfg s smp now then ["memory_high"] else []) ++
     (if diskFire cfg s smp now then ["disk_high"] else []))

/-- Counterexample to C7: on a tick where the host CPU sits at 100%
(above the 80% threshold, fresh cooldown) while memory and disk are low,
the spec's described behaviour emits `cpu_high`, but the source's `check`
emits nothing — it never samples CPU and has no `cpu_high` path at all. -/
theorem resource_monitor_no_cpu :
    "cpu_high" ∈ (checkPerSpec newResourceMonitor initRMState
        ⟨100, 10, 100, 100, 90⟩ 1000).2 ∧
    (ResourceMonitor.check newResourceMonitor initRMState
        ⟨100, 10, 100, 100, 90⟩ 1000).2 = [] := by
  constructor <;>
    norm_num [checkPerSpec, ResourceMonitor.check, memFire, diskFire,
      cooldownOver, newResourceMonitor, initRMState]

/-- The two-branch event list can contain only the two emitted kinds. -/
theorem cpu_notin_events (b c : Bool) :
    "cpu_high" ∉ ((if b then ["memory_high"] else []) ++
      (if c then ["disk_high"] else [])) := by
  cases b <;> cases c <;> decide

theorem mem_event_iff (b c : Bool) :
    ("memory_high" ∈ ((if b then ["memory_high"] else []) ++
      (if c then ["disk_high"] else []))) ↔ b = true := by
  cases b <;> cases c <;> decide

theorem disk_event_iff (b c : Bool) :
    ("disk_high" ∈ ((if b then ["memory_high"] else []) ++
      (if c then ["disk_high"] else []))) ↔ c = true := by
  cases b <;> cases c <;> decide

/-- C7 (amended): on each tick (period 30 s) `check` samples memory and
disk only: it emits `memory_high` exactly when the sampled memory
percentage exceeds 85 off-cooldown and `disk_high` exactly when the disk
percentage exceeds 90 off-cooldown, and it never emits `cpu_high` — CPU
statistics are not sampled, although the threshold field (80) exists. -/
theorem resource_check_amended (s : RMState) (smp : Sample) (now : Nat) :
    resourceCheckIntervalSeconds = 30 ∧
    "cpu_high" ∉ (ResourceMonitor.check newResourceMonitor s smp now).2 ∧
    ("memory_high" ∈ (ResourceMonitor.check newResourceMonitor s smp now).2 ↔
      ((85 : Rat) < (smp.memAlloc : Rat) / (smp.memSys : Rat) * 100 ∧
        cooldownOver s.lastMemAlert now 300 = true)) ∧
    ("disk_high" ∈ (ResourceMonitor.check newResourceMonitor s smp now).2 ↔
      ((90 : Rat) < ((smp.diskTotal - smp.diskFree : Nat) : Rat) /
          (smp.diskTotal : Rat) * 100 ∧
        cooldownOver s.lastDiskAlert now 300 = true)) := by
  refine ⟨rfl, ?_, ?_, ?_⟩
  · exact cpu_notin_events _ _
  · rw [show (ResourceMonitor.check newResourceMonitor s smp now).2 =
        (if memFire newResourceMonitor s smp now then ["memory_high"] else []) ++
          (if diskFire newResourceMonitor s smp now then ["disk_high"] else [])
      from rfl, mem_event_iff, memFire, Bool.and_eq_true, decide_eq_true_iff]
    exact Iff.rfl
  · rw [show (ResourceMonitor.check newResourceMonitor s smp now).2 =
        (if memFire newResourceMonitor s smp now then ["memory_high"] else []) ++
          (if diskFire newResourceMonitor s smp now then ["disk_high"] else [])
      from rfl, disk_event_iff, diskFire, Bool.and_eq_true, decide_eq_true_iff]
    exact Iff.rfl

/-! ## Event cooldown across ticks (C8)

The monitor's `Start` loop runs `check` once per tick, threading the
alert-time state. A run is modelled by the list of (tick time, sample)
pairs the loop observes. -/

/-- The ticker loop of the resource monitor: one `check` per tick,
collecting the emissions as (time, event kind) pairs in order. -/
def runMonitor (cfg : RMConfig) : RMState → List (Nat × Sample) →
    List (Nat × String)
  | _, [] => []
  | s, (now, smp) :: rest =>
      (ResourceMonitor.check cfg s smp now).2.map (fun e => (now, e)) ++
        runMonitor cfg (ResourceMonitor.check cfg s smp now).1 rest

/-- The emission times of one event kind, in order. -/
def kindTimes (k : String) (l : List (Nat × String)) : List Nat :=
  (l.filter (fun p => p.2 == k)).map Prod.fst

theorem kindTimes_append (k : String) (a b : List (Nat × String)) :
    kindTimes k (a ++ b) = kindTimes k a ++ kindTimes k b := by
  simp [kindTimes, List.filter_append]

/-- Per-kind cooldown invariant carried through the run: the last alert
time (if any) is more than a cooldown before every later emission of the
kind, link by link. -/
def gapChain (cd : Nat) : Option Nat → List Nat → Prop
  | none, l => List.Chain' (fun a b => cd < b - a) l
  | some t, l => List.Chain' (fun a b => cd < b - a) (t :: l)

theorem kindTimes_tick_mem (now : Nat) (mf df : Bool) :
    kindTimes "memory_high" (((if mf then ["memory_high"] else []) ++
        (if df then ["disk_high"] else [])).map (fun e => (now, e))) =
      (if mf then [now] else []) := by
  cases mf <;> cases df <;> rfl

theorem kindTimes_tick_disk (now : Nat) (mf df : Bool) :
    kindTimes "disk_high" (((if mf then ["memory_high"] else []) ++
        (if df then ["disk_high"] else [])).map (fun e => (now, e))) =
      (if df then [now] else []) := by
  cases mf <;> cases df <;> rfl

theorem runMonitor_mem_gap (cfg : RMConfig) (trace : List (Nat × Sample)) :
    ∀ s : RMState, gapChain cfg.alertCooldown s.lastMemAlert
      (kindTimes "memory_high" (runMonitor cfg s trace)) := by
  induction trace with
  | nil =>
    intro s
    cases h : s.lastMemAlert <;> simp [gapChain, runMonitor, kindTimes, h]
  | cons p rest ih =>
    intro s
    obtain ⟨now, smp⟩ := p
    rw [runMonitor, kindTimes_append,
      show (ResourceMonitor.check cfg s smp now).2 =
        (if memFire cfg s smp now then ["memory_high"] else []) ++
          (if diskFire cfg s smp now then ["disk_high"] else []) from rfl,
      kindTimes_tick_mem]
    have hih := ih (ResourceMonitor.check cfg s smp now).1
    cases hm : memFire cfg s smp now
    · rw [show (ResourceMonitor.check cfg s smp now).1.lastMemAlert =
          (if memFire cfg s smp now then some now else s.lastMemAlert) from rfl,
        hm] at hih
      simpa using hih
    · rw [show (ResourceMonitor.check cfg s smp now).1.lastMemAlert =
          (if memFire cfg s smp now then some now else s.lastMemAlert) from rfl,
        hm] at hih
      simp only [if_true, gapChain] at hih
      cases hs : s.lastMemAlert with
      | none => simpa [gapChain] using hih
      | some t =>
        have hcool : cfg.alertCooldown < now - t := by
          have hm2 := hm
          rw [memFire, hs, Bool.and_eq_true] at hm2
          have := hm2.2
          rwa [cooldownOver, decide_eq_true_iff] at this
        simp only [gapChain, if_true, List.singleton_append, List.cons_append,
          List.nil_append, List.chain'_cons]
        exact ⟨hcool, hih⟩

theorem runMonitor_disk_gap (cfg : RMConfig) (trace : List (Nat × Sample)) :
    ∀ s : RMState, gapChain cfg.alertCooldown s.lastDiskAlert
      (kindTimes "disk_high" (runMonitor cfg s trace)) := by
  induction trace with
  | nil =>
    intro s
    cases h : s.lastDiskAlert <;> simp [gapChain, runMonitor, kindTimes, h]
  | cons p rest ih =>
    intro s
    obtain ⟨now, smp⟩ := p
    rw [runMonitor, kindTimes_append,
      show (ResourceMonitor.check cfg s smp now).2 =
        (if memFire cfg s smp now then ["memory_high"] else []) ++
          (if diskFire cfg s smp now then ["disk_high"] else []) from rfl,
      kindTimes_tick_disk]
    have hih := ih (ResourceMonitor.check cfg s smp now).1
    cases hd : diskFire cfg s smp now
    · rw [show (ResourceMonitor.check cfg s smp now).1.lastDiskAlert =
          (if diskFire cfg s smp now then some now else s.lastDiskAlert) from rfl,
        hd] at hih
      simpa using hih
    · rw [show (ResourceMonitor.check cfg s smp now).1.lastDiskAlert =
          (if diskFire cfg s smp now then some now else s.lastDiskAlert) from rfl,
        hd] at hih
      simp only [if_true, gapChain] at hih
      cases hs : s.lastDiskAlert with
      | none => simpa [gapChain] using hih
      | some t =>
        have hcool : cfg.alertCooldown < now - t := by
          have hd2 := hd
          rw [diskFire, hs, Bool.and_eq_true] at hd2
          have := hd2.2
          rwa [cooldownOver, decide_eq_true_iff] at this
        simp only [gapChain, if_true, List.singleton_append, List.cons_append,
          List.nil_append, List.chain'_cons]
        exact ⟨hcool, hih⟩

theorem runMonitor_kinds (cfg : RMConfig) (trace : List (Nat × Sample)) :
    ∀ (s : RMState) (p : Nat × String), p ∈ runMonitor cfg s trace →
      p.2 = "memory_high" ∨ p.2 = "disk_high" := by
  induction trace with
  | nil => intro s p h; simp [runMonitor] at h
  | cons q rest ih =>
    intro s p h
    obtain ⟨now, smp⟩ := q
    rw [runMonitor] at h
    rcases List.mem_append.1 h with h1 | h2
    · rcases List.mem_map.1 h1 with ⟨e, he, rfl⟩
      rw [show (ResourceMonitor.check cfg s smp now).2 =
          (if memFire cfg s smp now then ["memory_high"] else []) ++
            (if diskFire cfg s smp now then ["disk_high"] else []) from rfl] at he
      revert he
      cases memFire cfg s smp now <;> cases diskFire cfg s smp now <;>
        intro he <;> simp at he <;> simp [he]
    · exact ih _ p h2

/-- C8: across any run of ticks, each event kind is emitted at most once
per cooldown window: consecutive emissions of the same kind are always
separated by more than `alertCooldown` (whose default, set by
`NewResourceMonitor`, is 300 s = 5 min), however long the threshold
condition holds. -/
theorem resource_event_cooldown (cfg : RMConfig)
    (trace : List (Nat × Sample)) (k : String) :
    newResourceMonitor.alertCooldown = 300 ∧
    List.Chain' (fun a b => cfg.alertCooldown < b - a)
      (kindTimes k (runMonitor cfg initRMState trace)) := by
  refine ⟨rfl, ?_⟩
  by_cases hk1 : k = "memory_high"
  · subst hk1
    have h := runMonitor_mem_gap cfg trace initRMState
    simpa [gapChain, initRMState] using h
  by_cases hk2 : k = "disk_high"
  · subst hk2
    have h := runMonitor_disk_gap cfg trace initRMState
    simpa [gapChain, initRMState] using h
  · have hempty : kindTimes k (runMonitor cfg initRMState trace) = [] := by
      rw [kindTimes]
      have hf : (runMonitor cfg initRMState trace).filter
          (fun p => p.2 == k) = [] := by
        rw [List.filter_eq_nil_iff]
        intro p hp
        rcases runMonitor_kinds cfg trace initRMState p hp with h | h
        · simp only [h, beq_iff_eq]
          exact fun hh => hk1 hh.symm
        · simp only [h, beq_iff_eq]
          exact fun hh => hk2 hh.symm
      rw [hf]; rfl
    rw [hempty]
    exact List.chain'_nil
